import Mathlib

/-!
Shallow embedding of the `rtest` file-watching test runner (`src/main.go`).

The program watches a directory tree, debounces duplicate filesystem
notifications per (path, operation) key with an 800ms window, and runs
`go test` in the directory containing a changed `.go` file.  External
effects (os.Stat, fsnotify's watcher.Add, exec.Cmd.Run) are modelled as
oracles in an `Env` record; the functions return explicit traces of the
invocations they perform, the diagnostic lines they emit, and the error
they propagate.
-/

namespace Rtest

/-! ### Go `path/filepath` helpers (Unix semantics), as called by the source -/

/-- Strip trailing `/` characters, as the loop at the top of
`filepath.Base` does. -/
def stripTrailingSlashes (l : List Char) : List Char :=
  (l.reverse.dropWhile (fun c => c = '/')).reverse

/-- The final path element of a slash-free suffix: everything after the
last `/`. -/
def lastElement (l : List Char) : List Char :=
  (l.reverse.takeWhile (fun c => c ≠ '/')).reverse

/-- Go `filepath.Base`: empty path gives `"."`; trailing slashes are
stripped; an all-slash path gives `"/"`; otherwise the last element. -/
def goBase (path : String) : String :=
  if path = "" then "."
  else
    let p := stripTrailingSlashes path.data
    if p = [] then "/" else String.mk (lastElement p)

/-- Scan a reversed path for the extension: stop at `/`, return the
suffix from the final `.` (in original order).  Mirrors `filepath.Ext`'s
backwards byte scan. -/
def extScan : List Char → List Char → String
  | [], _ => ""
  | c :: rest, acc =>
    if c = '/' then ""
    else if c = '.' then String.mk ('.' :: acc)
    else extScan rest (c :: acc)

/-- Go `filepath.Ext`: the suffix of the last element starting at its
final dot, or `""` when the last element has no dot. -/
def goExt (path : String) : String :=
  extScan path.data.reverse []

/-- One step of Go `filepath.Clean`'s element processing: drop `.`,
resolve `..` against the output stack (a leading `..` survives in a
relative path and vanishes in a rooted one). -/
def cleanStep (rooted : Bool) (acc : List String) (c : String) : List String :=
  if c = ".." then
    match acc with
    | [] => if rooted then [] else [".."]
    | a :: rest => if a = ".." then c :: acc else rest
  else c :: acc

/-- Split a character list at `/` into path components (empty
components for repeated slashes), the way `strings.Split` on `"/"`
would. -/
def splitComps : List Char → List Char → List String
  | [], cur => [String.mk cur.reverse]
  | c :: rest, cur =>
    if c = '/' then String.mk cur.reverse :: splitComps rest []
    else splitComps rest (c :: cur)

/-- Go `filepath.Clean` (Unix): collapse repeated slashes, drop `.`
elements, resolve `..`, keep rootedness, and return `"."` for an empty
result of a relative path. -/
def goClean (path : String) : String :=
  if path = "" then "."
  else
    let rooted := path.data.head? = some '/'
    let comps := (splitComps path.data []).filter (fun c => c ≠ "" && c ≠ ".")
    let out := (comps.foldl (cleanStep rooted) []).reverse
    if rooted then
      if out = [] then "/" else "/" ++ String.intercalate "/" out
    else
      if out = [] then "." else String.intercalate "/" out

/-- The prefix of the path up to and including its last `/` (empty when
the path has no `/`), matching the index scan in `filepath.Dir`. -/
def dirPrefix (l : List Char) : List Char :=
  (l.reverse.dropWhile (fun c => c ≠ '/')).reverse

/-- Go `filepath.Dir`: all but the last element of the path, cleaned;
`"."` when the path holds no `/`. -/
def goDir (path : String) : String :=
  goClean (String.mk (dirPrefix path.data))

/-! ### fsnotify operation masks and `Op.String` -/

/-- fsnotify `Create` bit. -/
def opCreate : Nat := 1
/-- fsnotify `Write` bit. -/
def opWrite : Nat := 2
/-- fsnotify `Remove` bit. -/
def opRemove : Nat := 4
/-- fsnotify `Rename` bit. -/
def opRename : Nat := 8
/-- fsnotify `Chmod` bit. -/
def opChmod : Nat := 16

/-- fsnotify `Op.String`: concatenate the names of the set bits in the
library's fixed order, `|`-separated, and strip the leading pipe. -/
def opString (op : Nat) : String :=
  let s :=
    (if op &&& opCreate = opCreate then "|CREATE" else "")
    ++ (if op &&& opRemove = opRemove then "|REMOVE" else "")
    ++ (if op &&& opWrite = opWrite then "|WRITE" else "")
    ++ (if op &&& opRename = opRename then "|RENAME" else "")
    ++ (if op &&& opChmod = opChmod then "|CHMOD" else "")
  if s = "" then "" else s.drop 1

/-! ### Environment oracles and traces -/

/-- Outcome of `exec.Cmd.Run`: `ok` is a zero exit, `exitErr` is a
started process that exited non-zero (Go returns an `*exec.ExitError`),
`launchErr` is a failure to start the process at all. -/
inductive RunOutcome where
  | ok : RunOutcome
  | exitErr (code : Nat) : RunOutcome
  | launchErr : RunOutcome
deriving DecidableEq, Repr

/-- The errors the Go code can return from the event path: a failed
`os.Stat` on a created entry, a failed `watcher.Add`, and the two ways
`cmd.Run` fails. -/
inductive GoError where
  | statError (path : String) : GoError
  | watchAddError (path : String) : GoError
  | launchError (dir : String) : GoError
  | exitError (dir : String) (code : Nat) : GoError
deriving DecidableEq, Repr

/-- One attempted run of the external test command: the working
directory given to `exec.Command` and the argument list after the
program name. -/
structure Invocation where
  dir : String
  args : List String
deriving DecidableEq, Repr

/-- Process environment: the debug flag, the pass-through extra
arguments (`flag.Args()`), and oracles for `os.Stat` (`some isDir` or
`none` for an error), `watcher.Add` success, and the outcome of running
the external command in a directory with an argument list. -/
structure Env where
  debug : Bool
  extraArgs : List String
  stat : String → Option Bool
  addOk : String → Bool
  run : String → List String → RunOutcome

/-- Go `debugln`: emit the line only when the debug flag is set. -/
def debugln (env : Env) (msg : String) : List String :=
  if env.debug then [msg] else []

deriving instance DecidableEq for Except

/-- Result of one invoker-path call: the invocation attempts made, the
diagnostic lines emitted, and the propagated error. -/
structure InvokeResult where
  invs : List Invocation
  log : List String
  err : Except GoError Unit
deriving DecidableEq, Repr

/-- Go `runGoTest`: build `["test"] ++ flag.Args()`, log the command
line, run `go` with that argument list in `dir`, and return `cmd.Run`'s
error: `nil` on exit 0, an exit error on non-zero exit, a launch error
when the process cannot start. -/
def runGoTest (env : Env) (dir : String) : InvokeResult :=
  let args := ["test"] ++ env.extraArgs
  let log := debugln env ("running: go " ++ String.intercalate " " args)
  match env.run dir args with
  | .ok => ⟨[⟨dir, args⟩], log, .ok ()⟩
  | .exitErr c => ⟨[⟨dir, args⟩], log, .error (.exitError dir c)⟩
  | .launchErr => ⟨[⟨dir, args⟩], log, .error (.launchError dir)⟩

/-- Go `runTestsForFile`: take the file's base name, directory and
extension; a non-`.go` extension is a silent no-op, otherwise run the
tests in the containing directory. -/
def runTestsForFile (env : Env) (file : String) : InvokeResult :=
  let filename := goBase file
  let dir := goDir file
  let ext := goExt filename
  if ext ≠ ".go" then ⟨[], [], .ok ()⟩
  else runGoTest env dir

/-- Go `runTestsForDir`: simply `runGoTest` on the directory. -/
def runTestsForDir (env : Env) (dir : String) : InvokeResult :=
  runGoTest env dir

/-! ### Event dispatcher (`handleEvent`) -/

/-- Result of dispatching one accepted event: the updated watch list,
the invocation attempts, the diagnostic lines, and the propagated
error. -/
structure EvResult where
  watches : List String
  invs : List Invocation
  log : List String
  err : Except GoError Unit
deriving DecidableEq, Repr

/-- A raw fsnotify notification as consumed by the event loop: the
path, the operation bit mask, and the `time.Now()` reading (in
nanoseconds) taken when the loop reads it. -/
structure RawEvent where
  name : String
  op : Nat
  time : Nat
deriving DecidableEq, Repr

/-- Go `handleEvent`: a `switch` whose first matching case wins.  The
Create case ignores paths whose base name is `vendor` outright, stats
the entry (fatal `StatError` on failure), runs the tests for a file,
and adds a watch for a directory (fatal error on `watcher.Add`
failure).  The Write case runs the tests for the file.  All other
operations fall through to a `nil` return. -/
def handleEvent (env : Env) (watches : List String) (ev : RawEvent) : EvResult :=
  if ev.op &&& opCreate = opCreate then
    if goBase ev.name = "vendor" then ⟨watches, [], [], .ok ()⟩
    else
      match env.stat ev.name with
      | none => ⟨watches, [], [], .error (.statError ev.name)⟩
      | some isDir =>
        if !isDir then
          let r := runTestsForFile env ev.name
          ⟨watches, r.invs, r.log, r.err⟩
        else
          let log := debugln env ("Adding watch: " ++ ev.name)
          if env.addOk ev.name then ⟨watches ++ [ev.name], [], log, .ok ()⟩
          else ⟨watches, [], log, .error (.watchAddError ev.name)⟩
  else if ev.op &&& opWrite = opWrite then
    let r := runTestsForFile env ev.name
    ⟨watches, r.invs, r.log, r.err⟩
  else ⟨watches, [], [], .ok ()⟩

/-! ### Event loop with debouncing (`handleEvents`) -/

/-- The throttle map `map[string]time.Time`, as an association list
with unique keys. -/
def throttleSet (th : List (String × Nat)) (k : String) (v : Nat) :
    List (String × Nat) :=
  match th with
  | [] => [(k, v)]
  | (k0, v0) :: rest =>
    if k0 = k then (k, v) :: rest else (k0, v0) :: throttleSet rest k v

/-- The throttle key `ev.Name + ":" + ev.Op.String()`. -/
def eventKey (ev : RawEvent) : String :=
  ev.name ++ ":" ++ opString ev.op

/-- The debounce test: a previous timestamp exists for the key and the
elapsed time, integer-divided into milliseconds as Go's
`now.Sub(t) / time.Millisecond` does, is below 800. -/
def shouldSkip (th : List (String × Nat)) (ev : RawEvent) : Bool :=
  match th.lookup (eventKey ev) with
  | some t => decide ((ev.time - t) / 1000000 < 800)
  | none => false

/-- Result of running the event loop over a finite prefix of the event
stream: the events that reached `handleEvent` (`dispatched`), the
invocation attempts, the final watch list, the final throttle table,
the diagnostic lines, and the loop's return value (an error terminates
the loop early). -/
structure LoopResult where
  dispatched : List RawEvent
  invs : List Invocation
  watches : List String
  throttle : List (String × Nat)
  log : List String
  res : Except GoError Unit
deriving DecidableEq, Repr

/-- Go `handleEvents`, restricted to the `watcher.Events` channel: per
event, log it, drop it when `shouldSkip` holds (the throttle table is
left untouched), otherwise record `now` under the key and dispatch via
`handleEvent`; a dispatch error returns from the loop at once. -/
def processEvents (env : Env) (evs : List RawEvent)
    (th : List (String × Nat)) (ws : List String) : LoopResult :=
  match evs with
  | [] => ⟨[], [], ws, th, [], .ok ()⟩
  | ev :: rest =>
    let evLog := debugln env ("watcher event: " ++ ev.name ++ " " ++ opString ev.op)
    if shouldSkip th ev then
      let skipLog := debugln env "skipping event, less than 800ms"
      let r := processEvents env rest th ws
      ⟨r.dispatched, r.invs, r.watches, r.throttle,
        evLog ++ skipLog ++ r.log, r.res⟩
    else
      let th2 := throttleSet th (eventKey ev) ev.time
      let e := handleEvent env ws ev
      match e.err with
      | .error err => ⟨[ev], e.invs, e.watches, th2, evLog ++ e.log, .error err⟩
      | .ok () =>
        let r := processEvents env rest th2 e.watches
        ⟨ev :: r.dispatched, e.invs ++ r.invs, r.watches, r.throttle,
          evLog ++ e.log ++ r.log, r.res⟩

/-! ### Manual trigger reader (`handleEnter`) -/

/-- Result of the manual-trigger loop over a finite list of input
lines: the invocation attempts, the diagnostic lines, and the errors
reported to standard error (the loop never stops on them). -/
structure EnterResult where
  invs : List Invocation
  log : List String
  reported : List GoError
deriving DecidableEq, Repr

/-- Go `handleEnter`: for every line scanned from standard input,
regardless of content, run the tests for the working directory; an
error is printed to standard error and the loop continues. -/
def handleEnter (env : Env) (wd : String) (lines : List String) : EnterResult :=
  match lines with
  | [] => ⟨[], [], []⟩
  | _ :: rest =>
    let r := runTestsForDir env wd
    let reported :=
      match r.err with
      | .ok () => ([] : List GoError)
      | .error e => [e]
    let tail := handleEnter env wd rest
    ⟨r.invs ++ tail.invs, r.log ++ tail.log, reported ++ tail.reported⟩

/-! ### Startup walk (`initWatches`) -/

/-- A directory tree as `filepath.Walk` sees it: each node has a name
and a directory additionally has an ordered list of children. -/
inductive FsTree where
  | file (name : String) : FsTree
  | dir (name : String) (children : List FsTree) : FsTree
deriving Repr

/-- The name component of a tree node. -/
def FsTree.nodeName : FsTree → String
  | .file n => n
  | .dir n _ => n

/-- Join a directory path with a child name, as `filepath.Walk` forms
the paths it visits. -/
def childPath (dir name : String) : String :=
  dir ++ "/" ++ name

mutual

/-- The `filepath.Walk` of `initWatches`, visiting the node at `path`:
files are skipped; a directory whose base name is `vendor` gets no
watch but the walk still returns `nil` (not `SkipDir`) and so descends
into its children; any other directory is watched (a failed
`watcher.Add` aborts the whole walk) and then its children are walked.
`acc` accumulates the watch list and the diagnostic lines. -/
def walkVisit (env : Env) (path : String) (t : FsTree)
    (acc : List String × List String) :
    Except GoError (List String × List String) :=
  match t with
  | .file _ => .ok acc
  | .dir _ children =>
    if goBase path = "vendor" then
      walkChildren env path children acc
    else
      let log2 := acc.2 ++ debugln env ("Adding watch: " ++ path)
      if env.addOk path then
        walkChildren env path children (acc.1 ++ [path], log2)
      else .error (.watchAddError path)

/-- Walk the children of the directory at `path` in order, threading
the accumulator and stopping at the first error. -/
def walkChildren (env : Env) (path : String) (ts : List FsTree)
    (acc : List String × List String) :
    Except GoError (List String × List String) :=
  match ts with
  | [] => .ok acc
  | t :: rest =>
    match walkVisit env (childPath path t.nodeName) t acc with
    | .ok acc2 => walkChildren env path rest acc2
    | .error e => .error e

end

/-- Go `initWatches` on a tree rooted at `root`: walk the whole tree
from an empty accumulator. -/
def initWatches (env : Env) (root : String) (t : FsTree) :
    Except GoError (List String × List String) :=
  walkVisit env root t ([], [])

mutual

/-- All directory paths of the tree rooted at `path`: the reference
enumeration the walk's watch list is compared against. -/
def dirPaths (path : String) (t : FsTree) : List String :=
  match t with
  | .file _ => []
  | .dir _ children => path :: dirPathsList path children

/-- Directory paths contributed by a list of children of the directory
at `path`. -/
def dirPathsList (path : String) (ts : List FsTree) : List String :=
  match ts with
  | [] => []
  | t :: rest =>
    dirPaths (childPath path t.nodeName) t ++ dirPathsList path rest

end

/-! ### Concrete environments and events used in witnesses -/

/-- An all-succeeding environment: every stat sees a directory, every
watch add succeeds, every run exits 0. -/
def envOkRun : Env := ⟨false, [], fun _ => some true, fun _ => true, fun _ _ => .ok⟩

/-- Same as `envOkRun` except every run of the external command exits
with status 1. -/
def envExitOne : Env := ⟨false, [], fun _ => some true, fun _ => true, fun _ _ => .exitErr 1⟩

/-- An environment whose stat oracle always fails. -/
def envStatFail : Env := ⟨false, [], fun _ => none, fun _ => true, fun _ _ => .ok⟩

/-- A tree with a `vendor` directory that itself has a subdirectory:
`proj/vendor/sub` and `proj/a`. -/
def vendorTree : FsTree :=
  .dir "proj" [.dir "vendor" [.dir "sub" []], .dir "a" []]

/-- Replace only the debug flag of an environment. -/
def setDebug (env : Env) (b : Bool) : Env :=
  ⟨b, env.extraArgs, env.stat, env.addOk, env.run⟩

/-! ### Helper lemmas -/

/-- `runGoTest` always records exactly one invocation attempt, in the
given directory, with the fixed subcommand followed by the extra
arguments. -/
theorem runGoTest_invs (env : Env) (dir : String) :
    (runGoTest env dir).invs = [⟨dir, "test" :: env.extraArgs⟩] := by
  cases h : env.run dir ("test" :: env.extraArgs) <;> simp [runGoTest, h]

/-- The error `runGoTest` propagates is exactly the image of the
`cmd.Run` outcome. -/
theorem runGoTest_err (env : Env) (dir : String) :
    (runGoTest env dir).err =
      match env.run dir ("test" :: env.extraArgs) with
      | .ok => .ok ()
      | .exitErr c => .error (.exitError dir c)
      | .launchErr => .error (.launchError dir) := by
  cases h : env.run dir ("test" :: env.extraArgs) <;> simp [runGoTest, h]

/-- Updating a throttle key makes its lookup return the new value. -/
theorem lookup_throttleSet_self (th : List (String × Nat)) (k : String) (v : Nat) :
    (throttleSet th k v).lookup k = some v := by
  induction th with
  | nil => simp [throttleSet, List.lookup]
  | cons p rest ih =>
    obtain ⟨k0, v0⟩ := p
    by_cases h : k0 = k
    · simp [throttleSet, h, List.lookup]
    · simp [throttleSet, h, List.lookup, ih,
        beq_eq_false_iff_ne.mpr (Ne.symm h)]

/-- Updating a throttle key leaves every other key's lookup unchanged. -/
theorem lookup_throttleSet_ne (th : List (String × Nat)) (k k' : String)
    (v : Nat) (hne : k' ≠ k) :
    (throttleSet th k v).lookup k' = th.lookup k' := by
  induction th with
  | nil => simp [throttleSet, List.lookup, beq_eq_false_iff_ne.mpr hne]
  | cons p rest ih =>
    obtain ⟨k0, v0⟩ := p
    by_cases h : k0 = k
    · subst h
      simp [throttleSet, List.lookup, beq_eq_false_iff_ne.mpr hne]
    · by_cases h' : k' = k0
      · subst h'
        simp [throttleSet, h, List.lookup]
      · simp [throttleSet, h, List.lookup, ih,
          beq_eq_false_iff_ne.mpr h']

/-- Two events with the same path and operation have the same throttle
key. -/
theorem eventKey_congr (e1 e2 : RawEvent) (hn : e2.name = e1.name)
    (ho : e2.op = e1.op) : eventKey e2 = eventKey e1 := by
  simp [eventKey, hn, ho]

/-- The Go millisecond comparison `now.Sub(t)/time.Millisecond < 800`
holds exactly when the nanosecond gap is below `800000000`. -/
theorem elapsed_ms_lt (d : Nat) : d / 1000000 < 800 ↔ d < 800000000 := by
  omega

/-! ### Claim theorems -/

/-- C5: an accepted Create event whose base name is `vendor` makes the
dispatcher do nothing at all: for every environment (in particular,
whatever the stat oracle would answer) the watch list is unchanged, no
invocation is attempted, nothing is logged, and no error is produced. -/
theorem vendor_create_is_noop (env : Env) (ws : List String) (ev : RawEvent)
    (hc : ev.op &&& opCreate = opCreate) (hv : goBase ev.name = "vendor") :
    handleEvent env ws ev = ⟨ws, [], [], .ok ()⟩ := by
  simp [handleEvent, hc, hv]

/-- Witness for `vendor_create_is_noop` at a concrete Create event on
`a/vendor`, in an environment whose stat oracle would have answered. -/
theorem vendor_create_is_noop_witness :
    ((1 : Nat) &&& opCreate = opCreate) ∧ goBase "a/vendor" = "vendor" ∧
      handleEvent envOkRun ["a"] ⟨"a/vendor", 1, 0⟩ = ⟨["a"], [], [], .ok ()⟩ :=
  ⟨by decide, by decide,
    vendor_create_is_noop envOkRun ["a"] ⟨"a/vendor", 1, 0⟩ (by decide) (by decide)⟩

/-- C9: an accepted event carrying both the Create and the Write bit is
handled exactly as a Create event — the `switch` takes its first
matching case, so the Write branch never additionally runs. -/
theorem create_branch_shadows_write (env : Env) (ws : List String)
    (ev : RawEvent) (hc : ev.op &&& opCreate = opCreate)
    (hw : ev.op &&& opWrite = opWrite) :
    handleEvent env ws ev = handleEvent env ws ⟨ev.name, opCreate, ev.time⟩ := by
  have h1 : opCreate &&& opCreate = opCreate := by decide
  simp [handleEvent, hc, h1]

/-- Witness for `create_branch_shadows_write` at a concrete event with
operation mask `3 = CREATE|WRITE`. -/
theorem create_branch_shadows_write_witness :
    ((3 : Nat) &&& opCreate = opCreate) ∧ ((3 : Nat) &&& opWrite = opWrite) ∧
      handleEvent envOkRun [] ⟨"p/a.go", 3, 0⟩ =
        handleEvent envOkRun [] ⟨"p/a.go", opCreate, 0⟩ :=
  ⟨by decide, by decide,
    create_branch_shadows_write envOkRun [] ⟨"p/a.go", 3, 0⟩ (by decide) (by decide)⟩

/-- C6: an accepted Create event on a non-`vendor` path whose stat
fails makes the loop return a `StatError` at once: no later event is
dispatched. -/
theorem stat_failure_fatal (env : Env) (th : List (String × Nat))
    (ws : List String) (ev : RawEvent) (rest : List RawEvent)
    (hc : ev.op &&& opCreate = opCreate) (hv : goBase ev.name ≠ "vendor")
    (hs : env.stat ev.name = none) (hacc : shouldSkip th ev = false) :
    (processEvents env (ev :: rest) th ws).res = .error (.statError ev.name) ∧
      (processEvents env (ev :: rest) th ws).dispatched = [ev] := by
  simp [processEvents, hacc, handleEvent, hc, hv, hs]

/-- Witness for `stat_failure_fatal`: a Create event on `p/new` in an
environment whose stat oracle fails, followed by another event that is
consequently never dispatched. -/
theorem stat_failure_fatal_witness :
    (((1 : Nat) &&& opCreate = opCreate) ∧ goBase "p/new" ≠ "vendor" ∧
        envStatFail.stat "p/new" = none ∧
        shouldSkip [] ⟨"p/new", 1, 0⟩ = false) ∧
      (processEvents envStatFail [⟨"p/new", 1, 0⟩, ⟨"p/a.go", 2, 0⟩] [] []).res =
          .error (.statError "p/new") ∧
      (processEvents envStatFail [⟨"p/new", 1, 0⟩, ⟨"p/a.go", 2, 0⟩] [] []).dispatched =
          [⟨"p/new", 1, 0⟩] :=
  ⟨⟨by decide, by decide, rfl, by decide⟩,
    stat_failure_fatal envStatFail [] [] ⟨"p/new", 1, 0⟩ [⟨"p/a.go", 2, 0⟩]
      (by decide) (by decide) rfl (by decide)⟩

/-- C7: an accepted Write event (the Create bit clear, so the Write
branch runs) on a `.go` path attempts exactly one invocation, in the
path's containing directory, with argument list `test` followed by the
extra arguments verbatim; on any other extension it attempts nothing
and raises no error. -/
theorem write_event_invocation (env : Env) (ws : List String) (ev : RawEvent)
    (hnc : ¬ev.op &&& opCreate = opCreate) (hw : ev.op &&& opWrite = opWrite) :
    (goExt (goBase ev.name) = ".go" →
        (handleEvent env ws ev).invs =
          [⟨goDir ev.name, "test" :: env.extraArgs⟩]) ∧
      (goExt (goBase ev.name) ≠ ".go" →
        (handleEvent env ws ev).invs = [] ∧
          (handleEvent env ws ev).err = .ok ()) := by
  constructor
  · intro hext
    simp [handleEvent, hnc, hw, runTestsForFile, hext, runGoTest_invs]
  · intro hext
    simp [handleEvent, hnc, hw, runTestsForFile, hext]

/-- Witness for `write_event_invocation`: a Write on `p/a.go` attempts
one invocation in `p`; a Write on `p/d.txt` attempts none and returns
no error. -/
theorem write_event_invocation_witness :
    (handleEvent envOkRun [] ⟨"p/a.go", 2, 0⟩).invs =
        [⟨goDir "p/a.go", "test" :: envOkRun.extraArgs⟩] ∧
      (handleEvent envOkRun [] ⟨"p/d.txt", 2, 0⟩).invs = [] ∧
      (handleEvent envOkRun [] ⟨"p/d.txt", 2, 0⟩).err = .ok () :=
  ⟨(write_event_invocation envOkRun [] ⟨"p/a.go", 2, 0⟩ (by decide) (by decide)).1
      (by decide),
    (write_event_invocation envOkRun [] ⟨"p/d.txt", 2, 0⟩ (by decide) (by decide)).2
      (by decide)⟩

/-- C8: every line of operator input, whatever its content, triggers
exactly one test run in the watch root directory, and a failing run is
merely reported — the reader loop still processes every later line. -/
theorem enter_line_triggers_root (env : Env) (wd : String) (lines : List String) :
    (handleEnter env wd lines).invs =
        lines.map (fun _ => ⟨wd, "test" :: env.extraArgs⟩) ∧
      (handleEnter env wd lines).reported =
        (match (runGoTest env wd).err with
          | .ok _ => []
          | .error e => lines.map (fun _ => e)) := by
  induction lines with
  | nil => cases h : (runGoTest env wd).err <;> simp [handleEnter, h]
  | cons l rest ih =>
    obtain ⟨ih1, ih2⟩ := ih
    cases h : (runGoTest env wd).err with
    | ok v =>
      rw [h] at ih2
      simp only [] at ih2
      simp [handleEnter, runTestsForDir, h, runGoTest_invs, ih1, ih2]
    | error e =>
      rw [h] at ih2
      simp only [] at ih2
      simp [handleEnter, runTestsForDir, h, runGoTest_invs, ih1, ih2]

/-- C3: after a first event is accepted, a second event with the same
path and operation is dropped when it arrives within the 800ms window
measured from the acceptance, and dispatched when the gap is 800ms or
more. -/
theorem debounce_window (env : Env) (th : List (String × Nat))
    (ws : List String) (e1 e2 : RawEvent)
    (hn : e2.name = e1.name) (ho : e2.op = e1.op) (hmono : e1.time ≤ e2.time)
    (hacc : shouldSkip th e1 = false)
    (hok : (handleEvent env ws e1).err = .ok ()) :
    (e2.time - e1.time < 800000000 →
        (processEvents env [e1, e2] th ws).dispatched = [e1]) ∧
      (800000000 ≤ e2.time - e1.time →
        (processEvents env [e1, e2] th ws).dispatched = [e1, e2]) := by
  have hkey : eventKey e2 = eventKey e1 := eventKey_congr e1 e2 hn ho
  have hlook : (throttleSet th (eventKey e1) e1.time).lookup (eventKey e2) =
      some e1.time := by
    rw [hkey]
    exact lookup_throttleSet_self th (eventKey e1) e1.time
  have hskip2 : shouldSkip (throttleSet th (eventKey e1) e1.time) e2 =
      decide ((e2.time - e1.time) / 1000000 < 800) := by
    simp [shouldSkip, hlook]
  constructor
  · intro hlt
    have hs2 : shouldSkip (throttleSet th (eventKey e1) e1.time) e2 = true := by
      rw [hskip2, decide_eq_true_eq, elapsed_ms_lt]
      exact hlt
    simp [processEvents, hacc, hok, hs2]
  · intro hge
    have hs2 : shouldSkip (throttleSet th (eventKey e1) e1.time) e2 = false := by
      rw [hskip2, decide_eq_false_iff_not, elapsed_ms_lt]
      omega
    cases h2 : (handleEvent env (handleEvent env ws e1).watches e2).err <;>
      simp [processEvents, hacc, hok, hs2, h2]

/-- Witness for `debounce_window`: a Write accepted at 0ns; a duplicate
at 700ms is dropped, a duplicate at exactly 800ms is dispatched. -/
theorem debounce_window_witness :
    (processEvents envOkRun
        [⟨"p/a.go", 2, 0⟩, ⟨"p/a.go", 2, 700000000⟩] [] []).dispatched =
        [⟨"p/a.go", 2, 0⟩] ∧
      (processEvents envOkRun
        [⟨"p/a.go", 2, 0⟩, ⟨"p/a.go", 2, 800000000⟩] [] []).dispatched =
        [⟨"p/a.go", 2, 0⟩, ⟨"p/a.go", 2, 800000000⟩] :=
  ⟨(debounce_window envOkRun [] [] ⟨"p/a.go", 2, 0⟩ ⟨"p/a.go", 2, 700000000⟩
      rfl rfl (by decide) (by decide) rfl).1 (by decide),
    (debounce_window envOkRun [] [] ⟨"p/a.go", 2, 0⟩ ⟨"p/a.go", 2, 800000000⟩
      rfl rfl (by decide) (by decide) rfl).2 (by decide)⟩

/-- C4: a dropped event leaves the throttle table completely unchanged,
while an accepted event sets exactly its own key to its arrival time
and leaves the lookup of every other key as it was. -/
theorem throttle_anchored (env : Env) (th : List (String × Nat))
    (ws : List String) (ev : RawEvent) :
    (shouldSkip th ev = true →
        (processEvents env [ev] th ws).throttle = th) ∧
      (shouldSkip th ev = false →
        (processEvents env [ev] th ws).throttle.lookup (eventKey ev) =
            some ev.time ∧
          ∀ k, k ≠ eventKey ev →
            (processEvents env [ev] th ws).throttle.lookup k = th.lookup k) := by
  constructor
  · intro hskip
    simp [processEvents, hskip]
  · intro hacc
    have hth : (processEvents env [ev] th ws).throttle =
        throttleSet th (eventKey ev) ev.time := by
      cases h : (handleEvent env ws ev).err <;> simp [processEvents, hacc, h]
    rw [hth]
    exact ⟨lookup_throttleSet_self th (eventKey ev) ev.time,
      fun k hk => lookup_throttleSet_ne th (eventKey ev) k ev.time hk⟩

/-- Witness for `throttle_anchored`: a duplicate arriving at 100ns is
dropped and the table keeps its old timestamp; an accepted event on a
fresh key records its own arrival time. -/
theorem throttle_anchored_witness :
    (processEvents envOkRun [⟨"p/a.go", 2, 100⟩] [("p/a.go:WRITE", 0)] []).throttle =
        [("p/a.go:WRITE", 0)] ∧
      (processEvents envOkRun [⟨"q/b.go", 2, 5⟩] [("p/a.go:WRITE", 0)] []).throttle.lookup
          (eventKey ⟨"q/b.go", 2, 5⟩) = some 5 :=
  ⟨(throttle_anchored envOkRun [("p/a.go:WRITE", 0)] [] ⟨"p/a.go", 2, 100⟩).1
      (by decide),
    ((throttle_anchored envOkRun [("p/a.go:WRITE", 0)] [] ⟨"q/b.go", 2, 5⟩).2
      (by decide)).1⟩

/-- C1 is false as stated: `cmd.Run` returns an error on a non-zero
exit status, and that error terminates the event loop.  The two
environments here are identical except that one's test command exits 1
and the other's exits 0, yet the loop result differs, and the
propagated error is an exit error, not a process-launch error. -/
theorem exit_status_affects_loop :
    (processEvents envExitOne [⟨"p/a.go", 2, 0⟩] [] []).res =
        .error (.exitError "p" 1) ∧
      (processEvents envOkRun [⟨"p/a.go", 2, 0⟩] [] []).res = .ok () :=
  ⟨rfl, rfl⟩

/-- C1 (amended): the dispatcher never inspects the exit status itself,
but it propagates whatever error `cmd.Run` returns, fatally to the
event loop: a zero exit lets the loop continue, a non-zero exit
propagates as an exit error and stops the loop, and a failure to start
the process propagates as a launch error and stops the loop. -/
theorem run_error_propagates (env : Env) (th : List (String × Nat))
    (ws : List String) (ev : RawEvent) (rest : List RawEvent)
    (hnc : ¬ev.op &&& opCreate = opCreate) (hw : ev.op &&& opWrite = opWrite)
    (hext : goExt (goBase ev.name) = ".go") (hacc : shouldSkip th ev = false) :
    (env.run (goDir ev.name) ("test" :: env.extraArgs) = .ok →
        (processEvents env (ev :: rest) th ws).res =
          (processEvents env rest (throttleSet th (eventKey ev) ev.time) ws).res) ∧
      (∀ c, env.run (goDir ev.name) ("test" :: env.extraArgs) = .exitErr c →
        (processEvents env (ev :: rest) th ws).res =
            .error (.exitError (goDir ev.name) c) ∧
          (processEvents env (ev :: rest) th ws).dispatched = [ev]) ∧
      (env.run (goDir ev.name) ("test" :: env.extraArgs) = .launchErr →
        (processEvents env (ev :: rest) th ws).res =
            .error (.launchError (goDir ev.name)) ∧
          (processEvents env (ev :: rest) th ws).dispatched = [ev]) := by
  have hwatches : (handleEvent env ws ev).watches = ws := by
    simp [handleEvent, hnc, hw, runTestsForFile, hext]
  have herr : (handleEvent env ws ev).err = (runGoTest env (goDir ev.name)).err := by
    simp [handleEvent, hnc, hw, runTestsForFile, hext]
  refine ⟨fun h => ?_, fun c h => ?_, fun h => ?_⟩
  · have hok : (handleEvent env ws ev).err = .ok () := by
      rw [herr, runGoTest_err, h]
    simp [processEvents, hacc, hok, hwatches]
  · have he : (handleEvent env ws ev).err = .error (.exitError (goDir ev.name) c) := by
      rw [herr, runGoTest_err, h]
    simp [processEvents, hacc, he]
  · have he : (handleEvent env ws ev).err = .error (.launchError (goDir ev.name)) := by
      rw [herr, runGoTest_err, h]
    simp [processEvents, hacc, he]

/-- Witness for `run_error_propagates`: with a test command that exits
1, the Write on `p/a.go` makes the loop stop with an exit error. -/
theorem run_error_propagates_witness :
    (processEvents envExitOne [⟨"p/a.go", 2, 0⟩] [] []).res =
        .error (.exitError (goDir "p/a.go") 1) ∧
      (processEvents envExitOne [⟨"p/a.go", 2, 0⟩] [] []).dispatched =
        [⟨"p/a.go", 2, 0⟩] :=
  (run_error_propagates envExitOne [] [] ⟨"p/a.go", 2, 0⟩ []
    (by decide) (by decide) (by decide) (by decide)).2.1 1 rfl

/-- The walk with an always-accepting watch mechanism succeeds and
appends to the accumulator, in walk order, exactly the directories of
the tree whose own base name is not `vendor`. -/
theorem walkVisit_filter (env : Env) (hadd : ∀ p, env.addOk p = true)
    (path : String) (t : FsTree) :
    ∀ acc : List String × List String,
      ∃ lg, walkVisit env path t acc =
        .ok (acc.1 ++ (dirPaths path t).filter (fun p => goBase p != "vendor"), lg) :=
  dirPaths.induct
    (fun path t => ∀ acc : List String × List String,
      ∃ lg, walkVisit env path t acc =
        .ok (acc.1 ++ (dirPaths path t).filter (fun p => goBase p != "vendor"), lg))
    (fun path ts => ∀ acc : List String × List String,
      ∃ lg, walkChildren env path ts acc =
        .ok (acc.1 ++ (dirPathsList path ts).filter (fun p => goBase p != "vendor"), lg))
    (fun _ _ acc => ⟨acc.2, by simp [walkVisit, dirPaths]⟩)
    (fun path a cs ih acc => by
      by_cases hv : goBase path = "vendor"
      · obtain ⟨lg, h⟩ := ih acc
        refine ⟨lg, ?_⟩
        simp [walkVisit, hv, dirPaths, h]
      · obtain ⟨lg, h⟩ :=
          ih (acc.1 ++ [path], acc.2 ++ debugln env ("Adding watch: " ++ path))
        refine ⟨lg, ?_⟩
        simp [walkVisit, hv, hadd path, dirPaths, h])
    (fun _ acc => ⟨acc.2, by simp [walkChildren, dirPathsList]⟩)
    (fun path t rest ih1 ih2 acc => by
      obtain ⟨lg1, h1⟩ := ih1 acc
      obtain ⟨lg2, h2⟩ := ih2 (acc.1 ++
        (dirPaths (childPath path t.nodeName) t).filter
          (fun p => goBase p != "vendor"), lg1)
      refine ⟨lg2, ?_⟩
      simp [walkChildren, h1, h2, dirPathsList, List.filter_append,
        List.append_assoc])
    path t

/-- C2 is false as stated: the walk callback returns `nil` rather than
`SkipDir` for a `vendor` directory, so the walk descends into it and
the startup WatchSet contains `proj/vendor/sub` — a descendant of a
directory whose base name is `vendor`. -/
theorem vendor_descendant_watched :
    initWatches envOkRun "proj" vendorTree =
        .ok (["proj", "proj/vendor/sub", "proj/a"], []) ∧
      goBase "proj/vendor" = "vendor" ∧
      childPath "proj/vendor" "sub" = "proj/vendor/sub" :=
  ⟨rfl, rfl, rfl⟩

/-- C2 (amended): when the watch mechanism accepts every directory, the
startup walk registers the root and every descendant directory except
the directories whose own base name is `vendor`; the walk does descend
into a `vendor` directory, so its non-`vendor` descendants are
registered. -/
theorem walk_registers_nonvendor_dirs (env : Env)
    (hadd : ∀ p, env.addOk p = true) (root : String) (t : FsTree) :
    ∃ lg, initWatches env root t =
      .ok ((dirPaths root t).filter (fun p => goBase p != "vendor"), lg) := by
  obtain ⟨lg, h⟩ := walkVisit_filter env hadd root t ([], [])
  exact ⟨lg, by simpa [initWatches] using h⟩

/-- Witness for `walk_registers_nonvendor_dirs` on the concrete tree
with a populated `vendor` directory. -/
theorem walk_registers_nonvendor_dirs_witness :
    (∀ p : String, envOkRun.addOk p = true) ∧
      (∃ lg, initWatches envOkRun "proj" vendorTree =
        .ok ((dirPaths "proj" vendorTree).filter
          (fun p => goBase p != "vendor"), lg)) :=
  ⟨fun _ => rfl,
    walk_registers_nonvendor_dirs envOkRun (fun _ => rfl) "proj" vendorTree⟩

@[simp]
theorem setDebug_extraArgs (env : Env) (b : Bool) :
    (setDebug env b).extraArgs = env.extraArgs := rfl

@[simp]
theorem setDebug_stat (env : Env) (b : Bool) :
    (setDebug env b).stat = env.stat := rfl

@[simp]
theorem setDebug_addOk (env : Env) (b : Bool) :
    (setDebug env b).addOk = env.addOk := rfl

@[simp]
theorem setDebug_run (env : Env) (b : Bool) :
    (setDebug env b).run = env.run := rfl

/-- The debug flag does not change which invocation `runGoTest`
attempts or which error it returns. -/
theorem runGoTest_debug (env : Env) (b : Bool) (dir : String) :
    (runGoTest (setDebug env b) dir).invs = (runGoTest env dir).invs ∧
      (runGoTest (setDebug env b) dir).err = (runGoTest env dir).err := by
  cases h : env.run dir ("test" :: env.extraArgs) <;>
    simp [runGoTest, h]

/-- The debug flag does not change what `runTestsForFile` does. -/
theorem runTestsForFile_debug (env : Env) (b : Bool) (file : String) :
    (runTestsForFile (setDebug env b) file).invs =
        (runTestsForFile env file).invs ∧
      (runTestsForFile (setDebug env b) file).err =
        (runTestsForFile env file).err := by
  by_cases hext : goExt (goBase file) = ".go"
  · obtain ⟨h1, h2⟩ := runGoTest_debug env b (goDir file)
    simp [runTestsForFile, hext, h1, h2]
  · simp [runTestsForFile, hext]

/-- The debug flag does not change the dispatcher's watch updates,
invocation attempts, or propagated error. -/
theorem handleEvent_debug (env : Env) (b : Bool) (ws : List String)
    (ev : RawEvent) :
    (handleEvent (setDebug env b) ws ev).watches =
        (handleEvent env ws ev).watches ∧
      (handleEvent (setDebug env b) ws ev).invs =
        (handleEvent env ws ev).invs ∧
      (handleEvent (setDebug env b) ws ev).err =
        (handleEvent env ws ev).err := by
  by_cases hc : ev.op &&& opCreate = opCreate
  · by_cases hv : goBase ev.name = "vendor"
    · simp [handleEvent, hc, hv]
    · cases hs : env.stat ev.name with
      | none => simp [handleEvent, hc, hv, hs]
      | some isDir =>
        cases isDir with
        | false =>
          obtain ⟨h1, h2⟩ := runTestsForFile_debug env b ev.name
          simp [handleEvent, hc, hv, hs, h1, h2]
        | true =>
          by_cases ha : env.addOk ev.name <;>
            simp [handleEvent, hc, hv, hs, ha]
  · by_cases hw : ev.op &&& opWrite = opWrite
    · obtain ⟨h1, h2⟩ := runTestsForFile_debug env b ev.name
      simp [handleEvent, hc, hw, h1, h2]
    · simp [handleEvent, hc, hw]

/-- The debug flag does not change anything the event loop does apart
from its diagnostic lines. -/
theorem processEvents_debug (env : Env) (b : Bool) (evs : List RawEvent)
    (th : List (String × Nat)) (ws : List String) :
    (processEvents (setDebug env b) evs th ws).dispatched =
        (processEvents env evs th ws).dispatched ∧
      (processEvents (setDebug env b) evs th ws).invs =
        (processEvents env evs th ws).invs ∧
      (processEvents (setDebug env b) evs th ws).watches =
        (processEvents env evs th ws).watches ∧
      (processEvents (setDebug env b) evs th ws).throttle =
        (processEvents env evs th ws).throttle ∧
      (processEvents (setDebug env b) evs th ws).res =
        (processEvents env evs th ws).res := by
  induction evs generalizing th ws with
  | nil => simp [processEvents]
  | cons ev rest ih =>
    by_cases hs : shouldSkip th ev
    · obtain ⟨i1, i2, i3, i4, i5⟩ := ih th ws
      simp [processEvents, hs, i1, i2, i3, i4, i5]
    · obtain ⟨h1, h2, h3⟩ := handleEvent_debug env b ws ev
      cases he : (handleEvent env ws ev).err with
      | error e =>
        have he2 : (handleEvent (setDebug env b) ws ev).err = .error e := by
          rw [h3, he]
        simp [processEvents, hs, he, he2, h1, h2]
      | ok v =>
        have he2 : (handleEvent (setDebug env b) ws ev).err = .ok v := by
          rw [h3, he]
        obtain ⟨i1, i2, i3, i4, i5⟩ :=
          ih (throttleSet th (eventKey ev) ev.time)
            ((handleEvent env ws ev).watches)
        simp [processEvents, hs, he, he2, h1, h2, i1, i2, i3, i4, i5]

/-- The debug flag does not change the manual-trigger loop's
invocations or reported errors. -/
theorem handleEnter_debug (env : Env) (b : Bool) (wd : String)
    (lines : List String) :
    (handleEnter (setDebug env b) wd lines).invs =
        (handleEnter env wd lines).invs ∧
      (handleEnter (setDebug env b) wd lines).reported =
        (handleEnter env wd lines).reported := by
  induction lines with
  | nil => simp [handleEnter]
  | cons l rest ih =>
    obtain ⟨h1, h2⟩ := runGoTest_debug env b wd
    cases he : (runGoTest env wd).err with
    | error e =>
      have he2 : (runGoTest (setDebug env b) wd).err = .error e := by
        rw [h2, he]
      simp [handleEnter, runTestsForDir, he, he2, h1, ih.1, ih.2]
    | ok v =>
      have he2 : (runGoTest (setDebug env b) wd).err = .ok v := by
        rw [h2, he]
      simp [handleEnter, runTestsForDir, he, he2, h1, ih.1, ih.2]

/-- The debug flag does not change which directories the startup walk
registers or which error aborts it, for any pair of accumulators that
agree on the watch component. -/
theorem walk_debug (env : Env) (b : Bool) (path : String) (t : FsTree) :
    ∀ acc1 acc2 : List String × List String, acc1.1 = acc2.1 →
      (walkVisit (setDebug env b) path t acc1).map Prod.fst =
        (walkVisit env path t acc2).map Prod.fst :=
  dirPaths.induct
    (fun path t => ∀ acc1 acc2 : List String × List String, acc1.1 = acc2.1 →
      (walkVisit (setDebug env b) path t acc1).map Prod.fst =
        (walkVisit env path t acc2).map Prod.fst)
    (fun path ts => ∀ acc1 acc2 : List String × List String, acc1.1 = acc2.1 →
      (walkChildren (setDebug env b) path ts acc1).map Prod.fst =
        (walkChildren env path ts acc2).map Prod.fst)
    (fun _ _ acc1 acc2 h => by simp [walkVisit, Except.map, h])
    (fun path a cs ih acc1 acc2 hfst => by
      by_cases hv : goBase path = "vendor"
      · simpa [walkVisit, hv] using ih acc1 acc2 hfst
      · by_cases ha : env.addOk path
        · have step := ih
            (acc1.1 ++ [path],
              acc1.2 ++ debugln (setDebug env b) ("Adding watch: " ++ path))
            (acc2.1 ++ [path],
              acc2.2 ++ debugln env ("Adding watch: " ++ path))
            (by simp [hfst])
          simpa [walkVisit, hv, ha, hfst] using step
        · simp [walkVisit, Except.map, hv, ha])
    (fun _ acc1 acc2 h => by simp [walkChildren, Except.map, h])
    (fun path t rest ih1 ih2 acc1 acc2 hfst => by
      have h1 := ih1 acc1 acc2 hfst
      cases hA : walkVisit (setDebug env b) (childPath path t.nodeName) t acc1 with
      | error e =>
        cases hB : walkVisit env (childPath path t.nodeName) t acc2 with
        | error e2 =>
          rw [hA, hB] at h1
          simp only [Except.map] at h1
          injection h1 with h1
          simp [walkChildren, hA, hB, h1]
        | ok p2 =>
          rw [hA, hB] at h1
          simp [Except.map] at h1
      | ok p1 =>
        cases hB : walkVisit env (childPath path t.nodeName) t acc2 with
        | error e2 =>
          rw [hA, hB] at h1
          simp [Except.map] at h1
        | ok p2 =>
          rw [hA, hB] at h1
          simp only [Except.map, Except.ok.injEq] at h1
          have step := ih2 p1 p2 h1
          simpa [walkChildren, hA, hB] using step)
    path t

/-- C10: the debug flag is observationally inert — with it on or off,
the event loop dispatches the same events, attempts the same
invocations, builds the same watch list and throttle table and stops
with the same result; the manual-trigger loop attempts the same
invocations and reports the same errors; and the startup walk registers
the same directories. -/
theorem debug_flag_transparent (env : Env) (evs : List RawEvent)
    (th : List (String × Nat)) (ws : List String) (wd : String)
    (lines : List String) (root : String) (t : FsTree) :
    ((processEvents (setDebug env true) evs th ws).dispatched =
        (processEvents (setDebug env false) evs th ws).dispatched ∧
      (processEvents (setDebug env true) evs th ws).invs =
        (processEvents (setDebug env false) evs th ws).invs ∧
      (processEvents (setDebug env true) evs th ws).watches =
        (processEvents (setDebug env false) evs th ws).watches ∧
      (processEvents (setDebug env true) evs th ws).throttle =
        (processEvents (setDebug env false) evs th ws).throttle ∧
      (processEvents (setDebug env true) evs th ws).res =
        (processEvents (setDebug env false) evs th ws).res) ∧
      ((handleEnter (setDebug env true) wd lines).invs =
          (handleEnter (setDebug env false) wd lines).invs ∧
        (handleEnter (setDebug env true) wd lines).reported =
          (handleEnter (setDebug env false) wd lines).reported) ∧
      (initWatches (setDebug env true) root t).map Prod.fst =
        (initWatches (setDebug env false) root t).map Prod.fst := by
  obtain ⟨a1, a2, a3, a4, a5⟩ := processEvents_debug env true evs th ws
  obtain ⟨b1, b2, b3, b4, b5⟩ := processEvents_debug env false evs th ws
  obtain ⟨c1, c2⟩ := handleEnter_debug env true wd lines
  obtain ⟨d1, d2⟩ := handleEnter_debug env false wd lines
  have w1 := walk_debug env true root t ([], []) ([], []) rfl
  have w2 := walk_debug env false root t ([], []) ([], []) rfl
  exact ⟨⟨a1.trans b1.symm, a2.trans b2.symm, a3.trans b3.symm,
      a4.trans b4.symm, a5.trans b5.symm⟩,
    ⟨c1.trans d1.symm, c2.trans d2.symm⟩,
    by simpa [initWatches] using w1.trans w2.symm⟩

end Rtest
